import Mathlib

/-!
Shallow embedding of the core of vinted/S3Grabber (Go) and proofs about it.

Modelled source files:
- internal/downloader/downloader.go : FindNewestFile, GetFiles
- internal/installer/installer.go   : removeContentsWithPrefix, ExtractTarGz
  (name-level effect), IsEmptyDir handling, checkLastModTime, Install
- internal/s3grabber/main.go        : RunS3Grabber aggregation

Go `time.Time` values are modelled as `Nat`, with `0` standing for the zero
time (`time.Time{}`); `Before` is `<`, `Equal` is `=`, `After` is `>`.
-/

namespace S3Grabber

/-- Outcome of `StatObject` on one replica for a fixed key
(downloader.go, FindNewestFile loop body): the object is present with a
last-modified time, absent (error code "NoSuchKey"), or the call failed with
a genuine error, identified here by a numeric code. -/
inductive StatResult where
  | found (lastModified : Nat)
  | notFound
  | otherError (code : Nat)
deriving DecidableEq, Repr

/-- Loop state of `FindNewestFile` (downloader.go:149-169): the running
maximum `modTime`, the index that attained it, whether any replica
registered (`checkedOne`), and the accumulated genuine errors (`errs`,
a multierror in the source). -/
structure FindState where
  modTime : Nat
  bucketIndex : Nat
  checkedOne : Bool
  errs : List Nat
deriving DecidableEq, Repr

/-- One iteration of the `FindNewestFile` loop (downloader.go:154-169):
a genuine error is appended to `errs` and the replica is skipped; "not
found" is skipped; a present object updates the running maximum only when
its time is strictly after (`After`) the current one. -/
def statStep (i : Nat) (r : StatResult) (s : FindState) : FindState :=
  match r with
  | .otherError c => { s with errs := s.errs ++ [c] }
  | .notFound => s
  | .found t =>
      if s.modTime < t then
        { s with modTime := t, bucketIndex := i, checkedOne := true }
      else s

/-- The `for i, cl := range m.clients` loop of `FindNewestFile`, with `i`
the index of the first remaining replica. -/
def findLoop (i : Nat) (rs : List StatResult) (s : FindState) : FindState :=
  match rs with
  | [] => s
  | r :: rest => findLoop (i + 1) rest (statStep i r s)

/-- The ways `FindNewestFile` can fail (downloader.go:143-144,171-176):
no clients configured; the collected multierror of genuine errors; or the
"no file has been modified" error (the spec's NoReplicaAvailable). -/
inductive FindError where
  | noClients
  | collected (errs : List Nat)
  | noneModified
deriving DecidableEq, Repr

/-- Embedding of `FindNewestFile` (downloader.go:142-178). The replica
list carries each replica's stat outcome for the key; the result is the
(modTime, bucketIndex) pair or the error, exactly following the source:
start from the zero state, run the loop, and return `ok` iff `checkedOne`
was set, preferring the collected errors over the generic error. -/
def FindNewestFile (rs : List StatResult) : Except FindError (Nat × Nat) :=
  if rs = [] then .error .noClients
  else
    let s := findLoop 0 rs ⟨0, 0, false, []⟩
    if s.checkedOne then .ok (s.modTime, s.bucketIndex)
    else if s.errs = [] then .error .noneModified
    else .error (.collected s.errs)

/-- Maximum last-modified time over the replicas that hold the object
(0 when none does, matching the zero-time initialisation in the source). -/
def maxFound : List StatResult → Nat
  | [] => 0
  | .found t :: rest => max t (maxFound rest)
  | _ :: rest => maxFound rest

/-- The genuine (non-"not found") error codes of a replica list, in order. -/
def genuineErrs : List StatResult → List Nat
  | [] => []
  | .otherError c :: rest => c :: genuineErrs rest
  | _ :: rest => genuineErrs rest

lemma statStep_modTime (i : Nat) (r : StatResult) (s : FindState) :
    (statStep i r s).modTime = match r with
      | .found t => max s.modTime t
      | _ => s.modTime := by
  cases r with
  | found t =>
      simp only [statStep]
      split
      · simp only [Nat.max_eq_right (Nat.le_of_lt (by assumption))]
      · simp only [Nat.max_eq_left (Nat.le_of_not_lt (by assumption))]
  | notFound => rfl
  | otherError c => rfl

lemma findLoop_modTime (rs : List StatResult) :
    ∀ (i : Nat) (s : FindState),
      (findLoop i rs s).modTime = max s.modTime (maxFound rs) := by
  induction rs with
  | nil => intro i s; simp [findLoop, maxFound]
  | cons r rest ih =>
      intro i s
      cases r with
      | found t =>
          simp only [findLoop, ih, statStep_modTime, maxFound]
          omega
      | notFound => simp [findLoop, ih, statStep, maxFound]
      | otherError c => simp [findLoop, ih, statStep, maxFound]

lemma findLoop_errs (rs : List StatResult) :
    ∀ (i : Nat) (s : FindState),
      (findLoop i rs s).errs = s.errs ++ genuineErrs rs := by
  induction rs with
  | nil => intro i s; simp [findLoop, genuineErrs]
  | cons r rest ih =>
      intro i s
      cases r with
      | found t =>
          simp only [findLoop, ih, genuineErrs]
          simp only [statStep]
          split <;> rfl
      | notFound => simp [findLoop, ih, statStep, genuineErrs]
      | otherError c => simp [findLoop, ih, statStep, genuineErrs]

lemma findLoop_checkedOne (rs : List StatResult) :
    ∀ (i : Nat) (s : FindState),
      (findLoop i rs s).checkedOne
        = (s.checkedOne || decide (s.modTime < maxFound rs)) := by
  induction rs with
  | nil => intro i s; simp [findLoop, maxFound]
  | cons r rest ih =>
      intro i s
      cases r with
      | found t =>
          simp only [findLoop, maxFound]
          by_cases h : s.modTime < t
          · simp only [statStep, if_pos h, ih]
            have : s.modTime < max t (maxFound rest) := by omega
            simp [this]
          · simp only [statStep, if_neg h, ih]
            have hiff : (s.modTime < max t (maxFound rest))
                ↔ (s.modTime < maxFound rest) := by omega
            rw [decide_eq_decide.mpr hiff]
      | notFound => simp [findLoop, ih, statStep, maxFound]
      | otherError c => simp [findLoop, ih, statStep, maxFound]

lemma findLoop_stable (rs : List StatResult) :
    ∀ (i : Nat) (s : FindState), maxFound rs ≤ s.modTime →
      (findLoop i rs s).bucketIndex = s.bucketIndex := by
  induction rs with
  | nil => intro i s _; simp [findLoop]
  | cons r rest ih =>
      intro i s h
      cases r with
      | found t =>
          simp only [maxFound] at h
          have ht : ¬ s.modTime < t := by omega
          simp only [findLoop, statStep, if_neg ht]
          exact ih _ s (by omega)
      | notFound =>
          simp only [maxFound] at h
          simpa [findLoop, statStep] using ih _ s h
      | otherError c =>
          simp only [maxFound] at h
          simp only [findLoop, statStep]
          exact ih _ _ h

lemma findLoop_firstMax (rs : List StatResult) :
    ∀ (i : Nat) (s : FindState), s.modTime < maxFound rs →
      (findLoop i rs s).bucketIndex
        = i + rs.findIdx (fun r => r == .found (maxFound rs)) := by
  induction rs with
  | nil => intro i s h; simp [maxFound] at h
  | cons r rest ih =>
      intro i s h
      cases r with
      | found t =>
          simp only [maxFound] at h ⊢
          by_cases hc : maxFound rest ≤ t
          · have hM : max t (maxFound rest) = t := by omega
            rw [hM] at h ⊢
            simp only [findLoop]
            rw [show statStep i (.found t) s
                  = { s with modTime := t, bucketIndex := i, checkedOne := true }
                from by simp [statStep, h]]
            rw [findLoop_stable rest _ _ (by simpa using hc)]
            simp [List.findIdx_cons]
          · have hM : max t (maxFound rest) = maxFound rest := by omega
            rw [hM] at h ⊢
            have hne : (StatResult.found t == StatResult.found (maxFound rest))
                = false := by
              simp only [beq_eq_false_iff_ne, ne_eq, StatResult.found.injEq]
              omega
            rw [List.findIdx_cons, hne]
            simp only [cond_false, findLoop]
            by_cases hlt : s.modTime < t
            · rw [show statStep i (.found t) s
                  = { s with modTime := t, bucketIndex := i, checkedOne := true }
                from by simp [statStep, hlt]]
              rw [ih (i + 1) _ (by simp; omega)]
              omega
            · rw [show statStep i (.found t) s = s from by simp [statStep, hlt]]
              rw [ih (i + 1) _ h]
              omega
      | notFound =>
          simp only [maxFound] at h ⊢
          rw [List.findIdx_cons]
          simp only [show (StatResult.notFound == StatResult.found (maxFound rest))
              = false from rfl, cond_false, findLoop]
          rw [show statStep i .notFound s = s from rfl]
          rw [ih (i + 1) s h]; omega
      | otherError c =>
          simp only [maxFound] at h ⊢
          rw [List.findIdx_cons]
          simp only [show (StatResult.otherError c == StatResult.found (maxFound rest))
              = false from rfl, cond_false, findLoop]
          have hs : (statStep i (.otherError c) s).modTime = s.modTime := rfl
          rw [ih (i + 1) _ (by rw [hs]; exact h)]; omega

lemma maxFound_pos_ne_nil {rs : List StatResult} (h : 0 < maxFound rs) :
    rs ≠ [] := by
  intro hnil; subst hnil; simp [maxFound] at h

/-- Claim C1 (amended): when some replica holds the object with a
modification time strictly after the zero time, `FindNewestFile` returns
the maximum modification time over all replicas holding the object,
paired with the index of the first replica (configuration order)
attaining that maximum; ties resolve to the lowest index because only a
strictly greater time displaces the running maximum. -/
theorem findNewestFile_max_first (rs : List StatResult) (h : 0 < maxFound rs) :
    FindNewestFile rs
      = .ok (maxFound rs, rs.findIdx (fun r => r == .found (maxFound rs))) := by
  have hne : rs ≠ [] := maxFound_pos_ne_nil h
  simp only [FindNewestFile, if_neg hne]
  have hchk : (findLoop 0 rs ⟨0, 0, false, []⟩).checkedOne = true := by
    rw [findLoop_checkedOne]; simpa using h
  rw [if_pos hchk]
  rw [findLoop_modTime]
  rw [findLoop_firstMax rs 0 ⟨0, 0, false, []⟩ (by simpa using h)]
  simp

/-- Witness for C1's amended theorem: three replicas, the middle two tie
at the maximum time 7, so the result is (7, index 1). -/
theorem findNewestFile_max_first_witness :
    FindNewestFile [.found 3, .found 7, .found 7, .notFound]
      = .ok (7, 1) := by
  have := findNewestFile_max_first
    [.found 3, .found 7, .found 7, .notFound] (by decide)
  simpa using this

/-- Counterexample to claim C1 as stated: the single replica holds the
object (stat succeeds) with the zero modification time, yet
`FindNewestFile` does not return (0, 0) — it fails, because only a time
strictly after the zero-initialised running maximum ever registers. -/
theorem findNewestFile_zero_time_fails :
    FindNewestFile [.found 0] = .error .noneModified := rfl

lemma maxFound_all_notFound (rs : List StatResult)
    (h : ∀ r ∈ rs, r = .notFound) : maxFound rs = 0 := by
  induction rs with
  | nil => rfl
  | cons r rest ih =>
      have hr := h r (by simp)
      subst hr
      exact ih (fun x hx => h x (by simp [hx]))

lemma genuineErrs_all_notFound (rs : List StatResult)
    (h : ∀ r ∈ rs, r = .notFound) : genuineErrs rs = [] := by
  induction rs with
  | nil => rfl
  | cons r rest ih =>
      have hr := h r (by simp)
      subst hr
      exact ih (fun x hx => h x (by simp [hx]))

/-- Claim C5 (amended): `FindNewestFile` on a nonempty replica list fails
exactly when no replica yields a hit with a modification time strictly
after the zero time; a replica erroring with something other than "not
found" does not abort the scan over the remaining replicas — its error is
recorded, and the collected genuine errors are returned only when no
replica ultimately succeeds; if every replica reports "not found", it
fails with the NoReplicaAvailable error. -/
theorem findNewestFile_failure_characterization (rs : List StatResult)
    (h : rs ≠ []) :
    ((∃ p, FindNewestFile rs = .ok p) ↔ 0 < maxFound rs)
    ∧ (maxFound rs = 0 → genuineErrs rs ≠ [] →
        FindNewestFile rs = .error (.collected (genuineErrs rs)))
    ∧ ((∀ r ∈ rs, r = .notFound) → FindNewestFile rs = .error .noneModified) := by
  have hchk : (findLoop 0 rs ⟨0, 0, false, []⟩).checkedOne
      = decide (0 < maxFound rs) := by
    rw [findLoop_checkedOne]; simp
  have herr : (findLoop 0 rs ⟨0, 0, false, []⟩).errs = genuineErrs rs := by
    rw [findLoop_errs]; rfl
  refine ⟨⟨?_, ?_⟩, ?_, ?_⟩
  · rintro ⟨p, hp⟩
    by_contra hmax
    have h0 : maxFound rs = 0 := by omega
    have hc : (findLoop 0 rs ⟨0, 0, false, []⟩).checkedOne = false := by
      rw [hchk, h0]; rfl
    simp only [FindNewestFile, if_neg h, hc, Bool.false_eq_true, if_false] at hp
    split at hp <;> exact Except.noConfusion hp
  · intro hmax
    exact ⟨_, findNewestFile_max_first rs hmax⟩
  · intro h0 hne
    simp only [FindNewestFile, if_neg h]
    rw [hchk, h0, herr]
    simp [hne]
  · intro hall
    have h0 := maxFound_all_notFound rs hall
    have hg := genuineErrs_all_notFound rs hall
    simp only [FindNewestFile, if_neg h]
    rw [hchk, h0, herr, hg]
    simp

/-- Witness for C5's amended theorem: one genuine error and one "not
found" — no replica registers, so the collected error list is surfaced. -/
theorem findNewestFile_failure_characterization_witness :
    FindNewestFile [StatResult.otherError 9, StatResult.notFound]
      = .error (.collected [9]) := by
  exact (findNewestFile_failure_characterization
      [StatResult.otherError 9, StatResult.notFound] (by decide)).2.1
    (by decide) (by decide)

/-- Counterexample to claim C5 as stated ("fails exactly when no replica
yields a hit"): the second replica yields a hit (the object is present,
at the zero modification time), yet `FindNewestFile` fails. -/
theorem findNewestFile_hit_but_fails :
    FindNewestFile [.notFound, .found 0] = .error .noneModified := rfl

/-! Content Fetcher, prefix mode (downloader.go, GetFiles). -/

/-- One entry of the underlying `ListObjects` listing as consumed by the
`GetFiles` goroutine: either the listing itself produced an error
(`objInfo.Err != nil`), or an object with its key, together with whether
the subsequent `GetObject` call for that key fails. -/
inductive ListEntry where
  | listingError
  | obj (key : String) (getFails : Bool)
deriving DecidableEq, Repr

/-- What `GetFiles` sends on the `bucketObjects` channel: an item whose
`Err` field is set, or a (relative key, stream) result. -/
inductive Emission where
  | errItem
  | fileItem (relKey : String)
deriving DecidableEq, Repr

/-- Go `strings.HasPrefix` (and `filepath.HasPrefix`, which on Unix is
the same function): a byte-prefix test, modelled on the string's
character list — the same relation on the valid UTF-8 the source deals
in, since UTF-8 is prefix-free per character. -/
def goHasPfx (pfx s : String) : Bool := pfx.data.isPrefixOf s.data

/-- Go `strings.HasSuffix(s, "/")`. -/
def endsWithSlash (s : String) : Bool := s.data.getLast? == some '/'

/-- Go `s[n:]` where `n` lands on a character boundary: drop the first
`n` characters. -/
def goDrop (s : String) (n : Nat) : String := ⟨s.data.drop n⟩

/-- The goroutine loop of `GetFiles` (downloader.go:58-103), as the list
of channel emissions. `errFlag` is the goroutine-level `var err error`
(downloader.go:60): once non-nil, every remaining listing entry is
consumed but handled by `continue`, emitting nothing. Only the
listing-error branch (downloader.go:67-72) assigns that variable. At
downloader.go:79 the short declaration `obj, err := bucketClient.
GetObject(...)` introduces a loop-local `err` shadowing the goroutine's
one, so the get-object failure branch (line 81) and the missing-prefix
branch (line 89) assign the shadowed local: each emits its error item but
leaves the goroutine's flag nil, and emission continues with the next
entry. A key equal to the (normalized) prefix is skipped; otherwise the
key with the prefix stripped is emitted. -/
def getFilesLoop (p : String) : List ListEntry → Bool → List Emission
  | [], _ => []
  | e :: rest, errFlag =>
    if errFlag then getFilesLoop p rest errFlag
    else
      match e with
      | .listingError => .errItem :: getFilesLoop p rest true
      | .obj key getFails =>
          if key = p then getFilesLoop p rest false
          else if getFails then .errItem :: getFilesLoop p rest false
          else if !(goHasPfx p key) then .errItem :: getFilesLoop p rest false
          else .fileItem (goDrop key p.length) :: getFilesLoop p rest false

/-- Prefix normalization at the top of `GetFiles` (downloader.go:54-56):
append a separator unless already present. -/
def normalizedPfx (p : String) : String :=
  if endsWithSlash p then p else p ++ "/"

/-- Embedding of `GetFiles` (downloader.go:45-106): an out-of-bounds
(including negative) bucket index is rejected; otherwise the channel
yields `getFilesLoop` over the listing with the error flag initially
clear. -/
def GetFiles (numClients : Nat) (bucketIndex : Int) (p : String)
    (listing : List ListEntry) : Option (List Emission) :=
  if bucketIndex < 0 ∨ (numClients : Int) ≤ bucketIndex then none
  else some (getFilesLoop (normalizedPfx p) listing false)

/-- Claim C3 (code bug): the source intends to stop emitting after the
first hard error — its own comment at downloader.go:63 says "stop
fetching files as soon as first error is encountered", and every error
branch assigns `err` as if setting that flag — but the short declaration
`obj, err := bucketClient.GetObject(...)` at downloader.go:79 shadows the
goroutine's `err`, so the get-object-failure and missing-prefix branches
set only the dead local and emission continues; only a listing error
stops the stream. At the failing input (prefix "d", a listing whose first
object's GetObject fails and whose second object is fine), `GetFiles`
emits the error item and then still emits the (relativeKey, stream)
result "b", where the claim requires no further results after the first
hard error. -/
theorem getFiles_emits_after_get_error :
    GetFiles 1 0 "d" [.obj "d/a" true, .obj "d/b" false]
      = some [.errItem, .fileItem "b"] := by decide

/-! Atomic Installer and Sync Unit (internal/installer/installer.go). -/

/-- Embedding of `removeContentsWithPrefix` (installer.go:31-53) at the
level of directory entry names (the trailing word of the source name is
shortened to `Pfx` here). An entry survives exactly when the prefix is
non-empty and the entry's name does not start with it
(`filepath.HasPrefix`, a byte-prefix test on Unix, not a glob); with an
empty prefix every entry is removed. -/
def removeContentsWithPfx (entries : List String) (pfx : String) : List String :=
  entries.filter (fun name => decide (¬ pfx = "") && !(goHasPfx pfx name))

/-- Names present in the target directory after the clear-then-copy step
of `ExtractTarGz` / `extractFiles` (installer.go:110-123, 372-386):
entries surviving the prefix-scoped removal, plus the archive's entries
(`cp.Copy` overwrites an entry of the same name rather than duplicating
it). -/
def installedNames (target archive : List String) (pfx : String) : List String :=
  (removeContentsWithPfx target pfx).filter (fun n => !(archive.contains n))
    ++ archive

/-- Result of `IsEmptyDir` as `Install` consumes it
(installer.go:188-206): the boolean, or an error (directory could not be
opened or read). -/
inductive EmptyCheckResult where
  | ok (isEmpty : Bool)
  | errored
deriving DecidableEq, Repr

/-- How the extraction step (`extracter.extractFiles`) fares:
`GetFile`/`GetFiles` failed before anything was written (attempted =
false); the extraction failed midway leaving the target at some list of
names (attempted = true — the clear-then-copy step is not transactional);
or it completed. -/
inductive ExtractResult where
  | getFileFailed
  | midFail (leftNames : List String)
  | extracted
deriving DecidableEq, Repr

/-- Outcome of `checkLastModTime` (installer.go:253-284): the wrapped
`findNewestFile` error, an `os.Stat` failure on the target directory,
ErrNoUpdate, or a detected update; the latter two carry the bucket index
the source returns alongside. -/
inductive CheckOutcome where
  | findFailed (e : FindError)
  | statFailed
  | noUpdate (bi : Nat)
  | updated (bi : Nat)
deriving DecidableEq, Repr

/-- Environment of one `Install` call: the unit's replica stat results
for its key, the ctime of the target directory (`none` = `os.Stat`
failed), the `IsEmptyDir` result, the configured replace prefix, the
archive's entry names, how extraction fares, and whether every
post-install command succeeds. -/
structure InstallEnv where
  replicas : List StatResult
  ctime : Option Nat
  emptyCheck : EmptyCheckResult
  replacePfx : String
  archive : List String
  extract : ExtractResult
  cmdsOk : Bool
deriving DecidableEq, Repr

/-- Mutable state of one sync unit across cycles: the staleness cursor
(`lastModTimeByObjectPath[bucketPath]`, 0 when unset, matching the map's
zero value) and the target directory's entry names. -/
structure SyncState where
  cursor : Nat
  target : List String
deriving DecidableEq, Repr

/-- Embedding of `checkLastModTime` (installer.go:253-284), returning the
outcome together with the cursor value after the call. A failure of
`findNewestFile` is propagated; a remote time `Before` or `Equal` the
cursor is ErrNoUpdate; otherwise, if `os.Stat` on the target failed that
error is propagated, a remote time strictly `Before` the target's ctime
is ErrNoUpdate, and else the cursor is assigned the remote time and the
bucket index is returned. -/
def checkLastModTime (find : Except FindError (Nat × Nat)) (ctime : Option Nat)
    (cursor : Nat) : CheckOutcome × Nat :=
  match find with
  | .error e => (.findFailed e, cursor)
  | .ok (mTm, bi) =>
      if mTm < cursor ∨ mTm = cursor then (.noUpdate bi, cursor)
      else
        match ctime with
        | none => (.statFailed, cursor)
        | some ct =>
            if mTm < ct then (.noUpdate bi, cursor)
            else (.updated bi, mTm)

/-- Errors `Install` can return, by originating step. -/
inductive InstallError where
  | checkFailed
  | getFailed
  | extractFailed
  | commandFailed
deriving DecidableEq, Repr

/-- The extraction-and-commands tail of `Install` (installer.go:226-243):
a `GetFile` failure returns attempted = false with the target untouched;
a mid-extraction failure returns attempted = true with the target as the
failure left it; on completed extraction the target becomes the
cleared-then-copied contents and the commands run in order, a failing
command reporting attempted = true. The cursor is never touched here. -/
def extractAndRun (env : InstallEnv) (s : SyncState) :
    Bool × Option InstallError × SyncState :=
  match env.extract with
  | .getFileFailed => (false, some .getFailed, s)
  | .midFail t => (true, some .extractFailed, { s with target := t })
  | .extracted =>
      let s' := { s with
        target := installedNames s.target env.archive env.replacePfx }
      if env.cmdsOk then (true, none, s')
      else (true, some .commandFailed, s')

/-- Embedding of `Install` (installer.go:202-244). An `IsEmptyDir` error
is logged and otherwise ignored, leaving `isEmpty` at the false value
`IsEmptyDir` returned with the error; an empty target sets `doInstall`;
a hard `checkLastModTime` error aborts with attempted = false;
ErrNoUpdate leaves `doInstall` as the emptiness check set it; a detected
update forces the install. The state records the cursor as
`checkLastModTime` left it. -/
def Install (env : InstallEnv) (s : SyncState) :
    Bool × Option InstallError × SyncState :=
  let isEmpty := match env.emptyCheck with
    | .ok b => b
    | .errored => false
  let res := checkLastModTime (FindNewestFile env.replicas) env.ctime s.cursor
  let s1 : SyncState := { s with cursor := res.2 }
  match res.1 with
  | .findFailed _ => (false, some .checkFailed, s1)
  | .statFailed => (false, some .checkFailed, s1)
  | .noUpdate _ => if isEmpty then extractAndRun env s1 else (false, none, s1)
  | .updated _ => extractAndRun env s1

/-- Embedding of `RunS3Grabber` (internal/s3grabber/main.go:21-76):
every sync unit runs `Install`; each unit's attempted flag is OR-ed
(under `globalInstallMtx`) into the aggregate boolean, and the run group
surfaces the first error among the units. -/
def runS3Grabber (units : List (InstallEnv × SyncState)) :
    Bool × Option InstallError :=
  let results := units.map (fun u => Install u.1 u.2)
  (results.foldl (fun acc r => acc || r.1) false,
   results.findSome? (fun r => r.2.1))

/-- Claim C4: with an empty replace prefix the clear step removes every
pre-existing entry, so the target afterwards holds exactly the archive's
entries; with a non-empty replace prefix exactly the entries whose name
starts with it (byte-prefix comparison, not glob) are removed; in
particular with prefix "p." an entry literally named "p" survives while
"p.old" is removed. -/
theorem install_clear_spec (target archive entries : List String)
    (pfx : String) (h : pfx ≠ "") :
    installedNames target archive "" = archive
    ∧ removeContentsWithPfx entries pfx
        = entries.filter (fun n => !(goHasPfx pfx n))
    ∧ removeContentsWithPfx ["p", "p.old"] "p." = ["p"] := by
  refine ⟨?_, ?_, ?_⟩
  · have hnil : removeContentsWithPfx target "" = [] := by
      rw [removeContentsWithPfx]
      rw [List.filter_eq_nil_iff]
      intro a _
      simp
    simp [installedNames, hnil]
  · rw [removeContentsWithPfx]
    apply List.filter_congr
    intro a _
    simp [h]
  · decide

/-- Witness for C4 at concrete inputs. -/
theorem install_clear_spec_witness :
    installedNames ["a", "p.x"] ["y"] "" = ["y"]
    ∧ removeContentsWithPfx ["a", "p.x"] "p."
        = List.filter (fun n => !(goHasPfx "p." n)) ["a", "p.x"]
    ∧ removeContentsWithPfx ["p", "p.old"] "p." = ["p"] :=
  install_clear_spec ["a", "p.x"] ["y"] ["a", "p.x"] "p." (by decide)

/-- Claim C2 (amended): the ctime guard of `checkLastModTime` classifies
the cycle NoUpdate only when the remote modification time is strictly
before the target directory's ctime; a remote time exactly equal to the
ctime is not NoUpdate — it proceeds as a detected update (given the
remote time is strictly after the cursor). -/
theorem checkLastModTime_ctime_strict (mTm bi cursor ct : Nat)
    (hcur : cursor < mTm) :
    (mTm < ct →
      checkLastModTime (.ok (mTm, bi)) (some ct) cursor
        = (.noUpdate bi, cursor))
    ∧ checkLastModTime (.ok (mTm, bi)) (some mTm) cursor
        = (.updated bi, mTm) := by
  have hnot : ¬ (mTm < cursor ∨ mTm = cursor) := by omega
  constructor
  · intro hct
    simp [checkLastModTime, hnot, hct]
  · simp [checkLastModTime, hnot]

/-- Witness for C2's amended theorem: cursor 3, remote time 5; ctime 9
gives NoUpdate, ctime 5 (equality) gives a detected update. -/
theorem checkLastModTime_ctime_strict_witness :
    checkLastModTime (.ok (5, 0)) (some 9) 3 = (.noUpdate 0, 3)
    ∧ checkLastModTime (.ok (5, 0)) (some 5) 3 = (.updated 0, 5) :=
  ⟨(checkLastModTime_ctime_strict 5 0 3 9 (by decide)).1 (by decide),
   (checkLastModTime_ctime_strict 5 0 3 9 (by decide)).2⟩

/-- Counterexample to claim C2 as stated: remote modification time 5
exactly equal to the target's ctime 5 (cursor 0) is NOT classified
NoUpdate — `checkLastModTime` reports a detected update and advances the
cursor, because the source tests `mTm.Before(ctime)` (strict). -/
theorem checkLastModTime_equal_ctime_updates :
    checkLastModTime (.ok (5, 0)) (some 5) 0 = (.updated 0, 5) := rfl

/-- Claim C6: re-running `Install` on a non-empty target (the emptiness
check returned false) when the newest remote modification time is not
strictly greater than the cached cursor returns attempted = false with no
error and leaves the state — cursor and target directory contents —
exactly unchanged. -/
theorem install_noop_when_unchanged (env : InstallEnv) (s : SyncState)
    (mTm bi : Nat)
    (hne : env.emptyCheck = .ok false)
    (hfind : FindNewestFile env.replicas = .ok (mTm, bi))
    (hstale : mTm ≤ s.cursor) :
    Install env s = (false, none, s) := by
  have hchk : checkLastModTime (FindNewestFile env.replicas) env.ctime s.cursor
      = (.noUpdate bi, s.cursor) := by
    rw [hfind]
    simp only [checkLastModTime]
    rw [if_pos (by omega : mTm < s.cursor ∨ mTm = s.cursor)]
  simp only [Install, hchk, hne]
  rfl

/-- Witness for C6: one replica at time 3, cursor already 3, non-empty
target ["a"] — no install, state unchanged. -/
theorem install_noop_when_unchanged_witness :
    Install ⟨[.found 3], some 1, .ok false, "", [], .extracted, true⟩
        ⟨3, ["a"]⟩
      = (false, none, ⟨3, ["a"]⟩) :=
  install_noop_when_unchanged _ _ 3 0 rfl rfl (by decide)

/-- Claim C8 (amended): a target directory with zero entries forces the
install step to run even when the freshness check classifies the cycle
NoUpdate because the remote modification time is unchanged from the
cursor, and the call reports attempted = true unless fetching the object
fails before extraction begins (in that one case `extractFiles` returns
attempted = false together with the fetch error). -/
theorem install_forced_when_empty (env : InstallEnv) (s : SyncState)
    (mTm bi : Nat)
    (hemp : env.emptyCheck = .ok true)
    (hfind : FindNewestFile env.replicas = .ok (mTm, bi))
    (hstale : mTm ≤ s.cursor)
    (hex : env.extract ≠ .getFileFailed) :
    (Install env s).1 = true := by
  have hchk : checkLastModTime (FindNewestFile env.replicas) env.ctime s.cursor
      = (.noUpdate bi, s.cursor) := by
    rw [hfind]
    simp only [checkLastModTime]
    rw [if_pos (by omega : mTm < s.cursor ∨ mTm = s.cursor)]
  simp only [Install, hchk, hemp]
  cases hx : env.extract with
  | getFileFailed => exact absurd hx hex
  | midFail t => simp [extractAndRun, hx]
  | extracted => cases hc : env.cmdsOk <;> simp [extractAndRun, hx, hc]

/-- Witness for C8's amended theorem: empty target, remote time 3 equal
to the cursor — NoUpdate by freshness, yet the install runs and attempted
is true. -/
theorem install_forced_when_empty_witness :
    (Install ⟨[.found 3], some 1, .ok true, "", ["f"], .extracted, true⟩
        ⟨3, []⟩).1 = true :=
  install_forced_when_empty _ _ 3 0 rfl rfl (by decide) (by decide)

/-- Counterexample to claim C8 as stated: target empty, remote time 3
unchanged from the cursor — emptiness forces the install step to run, but
`GetFile` fails before extraction starts, so `extractFiles` returns
(false, err) and `Install` reports attempted = false, not the claimed
true. -/
theorem install_empty_getfile_failure :
    Install ⟨[.found 3], some 1, .ok true, "", [], .getFileFailed, true⟩
        ⟨3, []⟩
      = (false, some .getFailed, ⟨3, []⟩) := by decide

/-- Claim C10: when `IsEmptyDir` itself errors, `Install` does not return
that error; it behaves exactly as if the emptiness check had reported a
non-empty target, so emptiness does not force an install and the cycle's
outcome — attempted flag, error, and resulting state — is decided by the
freshness check alone. -/
theorem install_emptycheck_error_ignored (env : InstallEnv) (s : SyncState)
    (h : env.emptyCheck = .errored) :
    Install env s = Install { env with emptyCheck := .ok false } s := by
  simp only [Install, h]
  rfl

/-- Witness for C10: with a failing emptiness check the run equals the
run with a non-empty report; here the freshness check finds an update, so
both install. -/
theorem install_emptycheck_error_ignored_witness :
    Install ⟨[.found 7], some 1, .errored, "", ["f"], .extracted, true⟩
        ⟨2, ["a"]⟩
      = Install ⟨[.found 7], some 1, .ok false, "", ["f"], .extracted, true⟩
        ⟨2, ["a"]⟩ :=
  install_emptycheck_error_ignored _ _ rfl

lemma extractAndRun_cursor (env : InstallEnv) (s : SyncState) :
    ((extractAndRun env s).2.2).cursor = s.cursor := by
  cases hx : env.extract with
  | getFileFailed => simp [extractAndRun, hx]
  | midFail t => simp [extractAndRun, hx]
  | extracted => cases hc : env.cmdsOk <;> simp [extractAndRun, hx, hc]

lemma install_cursor_eq (env : InstallEnv) (s : SyncState) :
    ((Install env s).2.2).cursor
      = (checkLastModTime (FindNewestFile env.replicas) env.ctime s.cursor).2 := by
  rcases hc : checkLastModTime (FindNewestFile env.replicas) env.ctime s.cursor
    with ⟨o, c⟩
  simp only [Install, hc]
  cases o with
  | findFailed e => rfl
  | statFailed => rfl
  | noUpdate bi =>
      cases henv : env.emptyCheck with
      | errored => simp [henv]
      | ok b =>
          cases b
          · simp [henv]
          · simp [henv, extractAndRun_cursor]
  | updated bi => exact extractAndRun_cursor env _

lemma checkLastModTime_cursor_cases (find : Except FindError (Nat × Nat))
    (ctime : Option Nat) (cursor : Nat) :
    (checkLastModTime find ctime cursor).2 = cursor
    ∨ ∃ mTm bi, find = .ok (mTm, bi) ∧ cursor < mTm
        ∧ checkLastModTime find ctime cursor = (.updated bi, mTm) := by
  match find with
  | .error e => exact Or.inl rfl
  | .ok (mTm, bi) =>
      simp only [checkLastModTime]
      by_cases h1 : mTm < cursor ∨ mTm = cursor
      · rw [if_pos h1]; exact Or.inl rfl
      · rw [if_neg h1]
        match ctime with
        | none => exact Or.inl rfl
        | some ct =>
            by_cases h2 : mTm < ct
            · exact Or.inl (by simp [h2])
            · exact Or.inr ⟨mTm, bi, rfl, by omega, by simp [h2]⟩

/-- Claim C9: across one `Install` cycle the staleness cursor is
non-decreasing — it is either left unchanged or assigned a remote
modification time strictly greater than its stored value — and when the
freshness check detects an update the cursor is already advanced in the
state handed to the extraction step, so it holds the new value whatever
the install step then does (the third conjunct holds for every extraction
outcome, including failures). -/
theorem install_cursor_monotone (env : InstallEnv) (s : SyncState) :
    s.cursor ≤ ((Install env s).2.2).cursor
    ∧ (((Install env s).2.2).cursor = s.cursor
        ∨ ∃ mTm bi, FindNewestFile env.replicas = .ok (mTm, bi)
            ∧ s.cursor < mTm ∧ ((Install env s).2.2).cursor = mTm)
    ∧ (∀ mTm bi,
        checkLastModTime (FindNewestFile env.replicas) env.ctime s.cursor
            = (.updated bi, mTm) →
        ((Install env s).2.2).cursor = mTm) := by
  have he := install_cursor_eq env s
  have hq := checkLastModTime_cursor_cases (FindNewestFile env.replicas)
    env.ctime s.cursor
  refine ⟨?_, ?_, ?_⟩
  · rcases hq with h | ⟨mTm, bi, _, hlt, heq⟩
    · rw [he, h]
    · rw [he, heq]
      exact Nat.le_of_lt hlt
  · rcases hq with h | ⟨mTm, bi, hfind, hlt, heq⟩
    · exact Or.inl (by rw [he, h])
    · exact Or.inr ⟨mTm, bi, hfind, hlt, by rw [he, heq]⟩
  · intro mTm bi hupd
    rw [he, hupd]

/-- Witness for C9: remote time 7, cursor 2, extraction fails midway —
the cursor in the resulting state is nevertheless already 7. -/
theorem install_cursor_monotone_witness :
    ((Install ⟨[.found 7], some 0, .ok false, "", [], .midFail ["z"], true⟩
        ⟨2, ["a"]⟩).2.2).cursor = 7 :=
  (install_cursor_monotone _ _).2.2 7 0 rfl

lemma foldl_or_eq_any (l : List (Bool × Option InstallError × SyncState))
    (b : Bool) :
    l.foldl (fun acc r => acc || r.1) b = (b || l.any (fun r => r.1)) := by
  induction l generalizing b with
  | nil => simp
  | cons r rest ih => simp [ih, Bool.or_assoc]

/-- Claim C7: the aggregate attempted boolean of `RunS3Grabber` is true
exactly when at least one sync unit's `Install` reported attempted =
true — including a unit that went on to return an error, since its
attempted flag is OR-ed in regardless; when every unit reports
attempted = false the aggregate is false. -/
theorem runS3Grabber_attempted_iff (units : List (InstallEnv × SyncState)) :
    (runS3Grabber units).1 = true
      ↔ ∃ u ∈ units, (Install u.1 u.2).1 = true := by
  simp only [runS3Grabber]
  rw [foldl_or_eq_any, Bool.false_or, List.any_eq_true]
  constructor
  · rintro ⟨r, hr, hatt⟩
    obtain ⟨u, hu, rfl⟩ := List.mem_map.mp hr
    exact ⟨u, hu, hatt⟩
  · rintro ⟨u, hu, hatt⟩
    exact ⟨Install u.1 u.2, List.mem_map.mpr ⟨u, hu, rfl⟩, hatt⟩

/-- Witness for C7: a single unit whose install is attempted but fails at
the command step — the aggregate attempted boolean is still true. -/
theorem runS3Grabber_attempted_iff_witness :
    (runS3Grabber
        [(⟨[.found 7], some 0, .ok false, "", ["f"], .extracted, false⟩,
          ⟨2, ["a"]⟩)]).1 = true :=
  (runS3Grabber_attempted_iff _).mpr
    ⟨(⟨[.found 7], some 0, .ok false, "", ["f"], .extracted, false⟩,
      ⟨2, ["a"]⟩), by simp, by decide⟩

end S3Grabber
